import Mathlib

/-!
Verification of the pylandsat catalog/scene core.

This file gives a shallow embedding, in Lean 4, of the pure parts of the
pylandsat repository (database.py, catalog.py, utils.py, scene.py,
preprocessing.py) and proves or refutes the frozen claims about them.

Python strings are modelled as lists of characters (`Str`), Python integers
as `Int`, Python floats as `ℚ` (exact arithmetic; none of the claims below
depends on rounding), numpy arrays as lists, and fallible Python code as
`Option`/`Except`.  Each definition is a direct translation of the
corresponding source function; definitions whose doc comment starts with
"Modelled from the spec" instead follow the specification's words and are
used to compare spec and code.
-/

/-- Python strings, modelled as lists of characters. -/
abbrev Str := List Char

/-! ### database.py -/

/-- A DB-API parameter: either a scalar or a list (database.py passes both). -/
inductive Param (α : Type) where
  | scalar (a : α)
  | list (l : List α)
deriving DecidableEq

/-- database.py `_flatten`: flatten the list objects in a list of DB-API
parameters, e.g. `[1, [2, 3]]` becomes `[1, 2, 3]`. -/
def _flatten {α : Type} : List (Param α) → List α
  | [] => []
  | Param.scalar a :: rest => a :: _flatten rest
  | Param.list l :: rest => l ++ _flatten rest

/-- The per-item contribution of one parameter to the flattened stream. -/
def paramItems {α : Type} : Param α → List α
  | Param.scalar a => [a]
  | Param.list l => l

/-- database.py `_format_placeholders`, first line:
the lengths of the list-valued parameters, in order of appearance. -/
def listLens {α : Type} (params : List (Param α)) : List Nat :=
  params.filterMap fun p =>
    match p with
    | Param.list l => some l.length
    | Param.scalar _ => none

/-- The literal pattern replaced by `_format_placeholders`. -/
def inPat : Str := ("IN ?").toList

/-- database.py: the string built by the comma join of n question marks. -/
def placeholders (n : Nat) : Str :=
  List.intercalate [','] (List.replicate n ['?'])

/-- The replacement text, an IN clause with `n` positional placeholders. -/
def inExp (n : Nat) : Str := ("IN (").toList ++ placeholders n ++ [')']

/-- Python `s.replace(pat, rep, 1)`: replace the first (leftmost)
occurrence of `pat` in `s` by `rep`; leave `s` unchanged if absent. -/
def replaceFirst (pat rep : Str) : Str → Str
  | [] => if pat.isPrefixOf ([] : Str) then rep else []
  | c :: s =>
      if pat.isPrefixOf (c :: s) then rep ++ (c :: s).drop pat.length
      else c :: replaceFirst pat rep s

/-- database.py `_format_placeholders`: for each list-valued parameter, in
order, replace one `IN ?` by an IN clause with as many placeholders as the
list has elements; also flatten the parameter list. -/
def _format_placeholders {α : Type} (query : Str) (params : List (Param α)) :
    Str × List α :=
  ((listLens params).foldl (fun q n => replaceFirst inPat (inExp n) q) query,
   _flatten params)

/-- Python `pat in s` for strings: substring test. -/
def containsSub (pat : Str) : Str → Bool
  | [] => pat.isPrefixOf ([] : Str)
  | c :: s => pat.isPrefixOf (c :: s) || containsSub pat s

/-- A query template with placeholder sites: `assemble first [s₁, …, sₘ]`
is `first ++ "IN ?" ++ s₁ ++ "IN ?" ++ … ++ sₘ`. -/
def assemble (first : Str) : List Str → Str
  | [] => first
  | s :: rest => first ++ inPat ++ assemble s rest

/-- The same template with each site expanded to an IN clause of the
corresponding width. -/
def assembleExp (first : Str) : List (Nat × Str) → Str
  | [] => first
  | (n, s) :: rest => first ++ inExp n ++ assembleExp s rest

/-- Sanity condition on a template: while sites are expanded left to right,
no occurrence of `IN ?` ever starts strictly before the next unexpanded
site (all real query templates in queries.py satisfy it). -/
def foldSafe (P first : Str) : List (Nat × Str) → Bool
  | [] => true
  | (n, s) :: rest =>
      !containsSub inPat (P ++ first ++ inPat.take (inPat.length - 1)) &&
      foldSafe (P ++ first ++ inExp n) s rest

/-! ### catalog.py — wrs -/

/-- A row of the `wrs` table as returned by the WRS_SEARCH query. -/
structure WrsRow where
  path : Int
  row : Int
  geom : Str
deriving DecidableEq

/-- A result record of `Catalog.wrs`; `cover` is present only when the
code's POLYGON branch ran. -/
structure WrsOut where
  path : Int
  row : Int
  geom : Str
  cover : Option ℚ
deriving DecidableEq

/-- The substring `Catalog.wrs` tests the input WKT for. -/
def polygonPat : Str := ("POLYGON").toList

/-- catalog.py `Catalog.wrs`.  The spatial datastore is external, so the
WRS_SEARCH query is modelled by filtering the `wrs` table `table` with the
engine's intersection verdict `intersects`, and shapely's
`geom.intersection(footprint).area` by the function `interArea`;
`geomWkt`/`geomArea` are `wkt.dumps(geom)` and `geom.area`. -/
def wrs (geomWkt : Str) (geomArea : ℚ) (interArea : WrsRow → ℚ)
    (table : List WrsRow) (intersects : WrsRow → Bool) : List WrsOut :=
  let path_row := table.filter intersects
  if containsSub polygonPat geomWkt then
    path_row.map fun pr =>
      { path := pr.path, row := pr.row, geom := pr.geom,
        cover := some (interArea pr / geomArea) }
  else
    path_row.map fun pr =>
      { path := pr.path, row := pr.row, geom := pr.geom, cover := none }

/-- Modelled from the spec: a geometry "is an area" exactly when its WKT
names a polygon (a point's WKT is "POINT (…)"). -/
def specIsArea (geomWkt : Str) : Bool := containsSub polygonPat geomWkt

/-! ### catalog.py — SLC-off filter -/

/-- A Python `datetime`, with its lexicographic comparison. -/
structure PyDatetime where
  year : Nat
  month : Nat
  day : Nat
  hour : Nat
  minute : Nat
  second : Nat
deriving DecidableEq

/-- Python `datetime.__lt__`: lexicographic on the six fields. -/
def PyDatetime.lt (a b : PyDatetime) : Bool :=
  decide (a.year < b.year) ||
  (decide (a.year = b.year) && (decide (a.month < b.month) ||
  (decide (a.month = b.month) && (decide (a.day < b.day) ||
  (decide (a.day = b.day) && (decide (a.hour < b.hour) ||
  (decide (a.hour = b.hour) && (decide (a.minute < b.minute) ||
  (decide (a.minute = b.minute) && decide (a.second < b.second))))))))))

/-- catalog.py: `FAILURE = datetime(2003, 5, 31)`. -/
def FAILURE : PyDatetime := ⟨2003, 5, 31, 0, 0, 0⟩

/-- A scene record after the sensing time has been materialized as a
datetime (the state on which `_slc_on` operates). -/
structure SceneRec where
  product_id : Str
  sensing_time : PyDatetime
deriving DecidableEq

/-- catalog.py `Catalog.search._slc_on`; `none` models the IndexError on a
product id shorter than 4 characters. -/
def _slc_on (scene : SceneRec) : Option Bool :=
  (scene.product_id[3]?).map fun sat =>
    if sat ≠ '7' then true
    else if PyDatetime.lt scene.sensing_time FAILURE = false then false
    else true

/-- The list comprehension `[scene for scene in scenes_ if _slc_on(scene)]`. -/
def slcPass : List SceneRec → Option (List SceneRec)
  | [] => some []
  | s :: rest => do
      let keep ← _slc_on s
      let tail ← slcPass rest
      pure (if keep then s :: tail else tail)

/-- catalog.py: the post-query `if slc:` filtering step of `search`. -/
def applySlcFilter (slc : Bool) (scenes : List SceneRec) :
    Option (List SceneRec) :=
  if slc then slcPass scenes else some scenes

/-! ### catalog.py — argument handling of search -/

/-- A Python scalar value (int, float or str). -/
inductive PyScalar where
  | int (z : Int)
  | float (q : ℚ)
  | str (s : Str)
deriving DecidableEq

/-- A Python value as passed for `path`, `row` or `maxcloud`: `None`, a
scalar, a list of scalars, or a tuple of scalars. -/
inductive PyVal where
  | none
  | scalar (v : PyScalar)
  | list (xs : List PyScalar)
  | tuple (xs : List PyScalar)
deriving DecidableEq

/-- Python truthiness of such a value. -/
def truthy : PyVal → Bool
  | PyVal.none => false
  | PyVal.scalar (PyScalar.int n) => decide (n ≠ 0)
  | PyVal.scalar (PyScalar.float q) => decide (q ≠ 0)
  | PyVal.scalar (PyScalar.str s) => !s.isEmpty
  | PyVal.list xs => !xs.isEmpty
  | PyVal.tuple xs => !xs.isEmpty

/-- `isinstance(value, float)`. -/
def PyVal.isFloat : PyVal → Bool
  | PyVal.scalar (PyScalar.float _) => true
  | _ => false

/-- catalog.py `_to_list`: convert a parameter value to a list (`none`
models Python `None`). -/
def _to_list (value : PyVal) : Option (List PyScalar) :=
  if !truthy value then Option.none
  else
    match value with
    | PyVal.list xs => some xs
    | PyVal.tuple xs => some xs
    | PyVal.none => some []
    | PyVal.scalar v => some [v]

/-- Truthiness of the `path`/`row` variables after `_to_list`
(`None` or a list). -/
def optListTruthy : Option (List PyScalar) → Bool
  | Option.none => false
  | some xs => !xs.isEmpty

/-- Truthiness of the `geom` variable (either `None` or a WKT string;
`wkt.dumps` of a geometry is a nonempty string). -/
def optStrTruthy : Option Str → Bool
  | Option.none => false
  | some s => !s.isEmpty

/-- The two spatial query strategies of `Catalog.search`. -/
inductive Strategy where
  | pathrow
  | spatial
deriving DecidableEq

/-- catalog.py `Catalog.search`, spatial-strategy dispatch: the
`if path and row: … elif geom: … else: raise ValueError` block, after
`path, row = _to_list(path), _to_list(row)`. -/
def searchStrategy (path row : PyVal) (geom : Option Str) :
    Except Str Strategy :=
  let p := _to_list path
  let r := _to_list row
  if optListTruthy p && optListTruthy r then Except.ok Strategy.pathrow
  else if optStrTruthy geom then Except.ok Strategy.spatial
  else Except.error (("No spatial information provided.").toList)

/-- catalog.py `Catalog.search`, the maxcloud default:
`if not maxcloud and not isinstance(maxcloud, float): maxcloud = 100.`. -/
def defaultMaxcloud (maxcloud : PyVal) : PyVal :=
  if !truthy maxcloud && !maxcloud.isFloat then
    PyVal.scalar (PyScalar.float 100)
  else maxcloud

/-! ### utils.py — meta_from_pid -/

/-- Python `s.split(sep)` for a one-character separator: split at every
occurrence, keeping empty fields (so `"".split(sep) == [""]`). -/
def pySplit (sep : Char) : Str → List Str
  | [] => [[]]
  | c :: s =>
      let rest := pySplit sep s
      if c = sep then [] :: rest
      else
        match rest with
        | [] => [[c]]
        | t :: ts => (c :: t) :: ts

/-- ASCII decimal digit test. -/
def isDig (c : Char) : Bool := decide (48 ≤ c.toNat) && decide (c.toNat ≤ 57)

/-- Numeric value of a digit character. -/
def digVal (c : Char) : Nat := c.toNat - 48

/-- Value of a decimal digit string. -/
def decValue (s : Str) : Nat := s.foldl (fun a c => 10 * a + digVal c) 0

/-- Parse a nonempty all-digit string. -/
def digParse (s : Str) : Option Nat :=
  if !s.isEmpty && s.all isDig then some (decValue s) else Option.none

/-- Python `int(s)`: an optional sign followed by decimal digits.
(Surrounding whitespace and underscore digit separators, which Python also
accepts, do not occur in this repository's inputs and are not modelled.) -/
def pyIntParse (s : Str) : Option Int :=
  if s.head? = some '+' then (digParse s.tail).map fun n => (n : Int)
  else if s.head? = some '-' then (digParse s.tail).map fun n => -(n : Int)
  else (digParse s).map fun n => (n : Int)

/-- Gregorian leap year. -/
def isLeap (y : Nat) : Bool :=
  (decide (y % 4 = 0) && decide (y % 100 ≠ 0)) || decide (y % 400 = 0)

/-- Days in a month. -/
def daysInMonth (y m : Nat) : Nat :=
  if m = 2 then (if isLeap y then 29 else 28)
  else if m = 4 || m = 6 || m = 9 || m = 11 then 30
  else 31

/-- A Python `datetime` as produced by `strptime(s, griddate)` with zeroed
time-of-day fields: only the calendar date matters here. -/
structure PyDate where
  year : Nat
  month : Nat
  day : Nat
deriving DecidableEq

/-- `datetime.strptime(s, date8)` for the 8-digit `YYYYMMDD` layout used by
product identifiers: validates the month and day ranges and `MINYEAR = 1`;
non-canonical inputs fail. -/
def strptimeYmd (s : Str) : Option PyDate :=
  if s.length = 8 && s.all isDig then
    let y := decValue (s.take 4)
    let m := decValue ((s.drop 4).take 2)
    let d := decValue (s.drop 6)
    if 1 ≤ y && 1 ≤ m && m ≤ 12 && 1 ≤ d && d ≤ daysInMonth y m then
      some ⟨y, m, d⟩
    else Option.none
  else Option.none

/-- The record built by utils.py `meta_from_pid`. -/
structure PidMeta where
  product_id : Str
  sensor : Str
  correction : Str
  path : Int
  row : Int
  acquisition_date : PyDate
  processing_date : PyDate
  collection : Int
  tier : Str
deriving DecidableEq

/-- utils.py `meta_from_pid`: split the product identifier on underscores
and parse the parts (`none` models the IndexError / ValueError paths). -/
def meta_from_pid (product_id : Str) : Option PidMeta := do
  let parts := pySplit '_' product_id
  let sensor ← parts[0]?
  let correction ← parts[1]?
  let pathrow ← parts[2]?
  let path ← pyIntParse (pathrow.take 3)
  let row ← pyIntParse (pathrow.drop 3)
  let acq ← parts[3]?
  let acquisition_date ← strptimeYmd acq
  let prc ← parts[4]?
  let processing_date ← strptimeYmd prc
  let col ← parts[5]?
  let collection ← pyIntParse col
  let tier ← parts[6]?
  pure ⟨product_id, sensor, correction, path, row, acquisition_date,
        processing_date, collection, tier⟩

/-- Zero-padded fixed-width decimal rendering (width `w`). -/
def padDec : Nat → Nat → Str
  | 0, _ => []
  | w + 1, v => padDec w (v / 10) ++ [Char.ofNat (48 + v % 10)]

/-- Modelled from the spec: render a date in the `YYYYMMDD` field layout. -/
def dateStr (d : PyDate) : Str :=
  padDec 4 d.year ++ padDec 2 d.month ++ padDec 2 d.day

/-- Underscore join, the inverse of `pySplit '_'`. -/
def joinUnderscore : List Str → Str
  | [] => []
  | [s] => s
  | s :: rest => s ++ '_' :: joinUnderscore rest

/-- Modelled from the spec: re-stringify the fields extracted by
`meta_from_pid` into the 7-field underscore-joined identifier layout
`SENSOR_CORRECTION_PPPRRR_YYYYMMDD_YYYYMMDD_CC_TIER`. -/
def restringify (m : PidMeta) : Str :=
  joinUnderscore [m.sensor, m.correction,
    padDec 3 m.path.toNat ++ padDec 3 m.row.toNat,
    dateStr m.acquisition_date, dateStr m.processing_date,
    padDec 2 m.collection.toNat, m.tier]

/-- A well-formed 7-field product identifier: grid-cell field of exactly six
digits, two valid 8-digit dates, and a two-digit collection field. -/
def validPid (pid : Str) : Bool :=
  match pySplit '_' pid with
  | [_, _, pathrow, acq, prc, col, _] =>
      decide (pathrow.length = 6) && pathrow.all isDig &&
      (strptimeYmd acq).isSome && (strptimeYmd prc).isSome &&
      decide (col.length = 2) && col.all isDig
  | _ => false

/-! ### scene.py / preprocessing.py — bands and radiometric conversion -/

/-- The substring the thermal-band guards test for. -/
def tirPat : Str := ("tir").toList

/-- The state of a `Band` object that the conversion methods read: the
derived short name, the MTL calibration constants, and the DN array (numpy
arrays are modelled as lists of exact numbers; `k1`/`k2` live in `ℝ`
because brightness temperature uses a logarithm). -/
structure BandInfo where
  bname : Str
  radiance_gain : ℚ
  radiance_bias : ℚ
  reflectance_gain : ℚ
  reflectance_bias : ℚ
  k1 : ℝ
  k2 : ℝ
  dn : List ℚ

/-- preprocessing.py `to_radiance` applied by `Band.to_radiance`:
`gain * dn + bias`, elementwise. -/
def to_radiance (b : BandInfo) : List ℚ :=
  b.dn.map fun x => b.radiance_gain * x + b.radiance_bias

/-- scene.py `Band.to_reflectance`: refuse thermal bands, otherwise apply
the reflectance rescaling (no sun-elevation argument is passed there). -/
def to_reflectance (b : BandInfo) : Except Str (List ℚ) :=
  if containsSub tirPat b.bname then
    Except.error (("TIR bands cannot be converted to reflectance.").toList)
  else
    Except.ok (b.dn.map fun x => b.reflectance_gain * x + b.reflectance_bias)

/-- preprocessing.py `to_brightness_temperature`, elementwise:
`k2 / log(k1 / (radiance + 1))` (numpy `log` is the natural logarithm,
modelled exactly by `Real.log`). -/
noncomputable def btPixel (k1 k2 : ℝ) (radiance : ℚ) : ℝ :=
  k2 / Real.log (k1 / ((radiance : ℝ) + 1))

/-- scene.py `Band.to_brightness_temperature`: refuse non-thermal bands,
otherwise convert the radiance of the DN array. -/
noncomputable def to_brightness_temperature (b : BandInfo) :
    Except Str (List ℝ) :=
  if !containsSub tirPat b.bname then
    Except.error
      (("Only thermal bands can be converted to brightness temperature.").toList)
  else
    Except.ok ((to_radiance b).map (btPixel b.k1 b.k2))

/-! ### scene.py — _band_shortname -/

/-- Python `s.find(c)` for a one-character needle: first index or -1. -/
def pyFind (c : Char) : Str → Int
  | [] => -1
  | x :: s =>
      if x = c then 0
      else
        let r := pyFind c s
        if r < 0 then -1 else r + 1

/-- Normalization of one Python slice endpoint against a length. -/
def pySliceIdx (len : Nat) (i : Int) : Nat :=
  if i < 0 then len - (-i).toNat else min i.toNat len

/-- Python `s[a:b]` for integer endpoints. -/
def pySlice (s : Str) (a b : Int) : Str :=
  (s.take (pySliceIdx s.length b)).drop (pySliceIdx s.length a)

/-- Python `s.lower()` (ASCII case mapping suffices for band names). -/
def pyLower (s : Str) : Str := s.map Char.toLower

/-- scene.py `_band_shortname`: parenthesized abbreviation if a '(' is
present (sliced between `find('(') + 1` and `find(')')`), else spaces and
hyphens become underscores; lowercased either way. -/
def _band_shortname (long_name : Str) : Str :=
  let short_name :=
    if long_name.contains '(' then
      pySlice long_name (pyFind '(' long_name + 1) (pyFind ')' long_name)
    else
      long_name.map fun c => if c = ' ' || c = '-' then '_' else c
  pyLower short_name

/-- The text of the first parenthesized abbreviation: the content between
the first '(' and the next ')' after it, when both exist. -/
def upToClose : Str → Option Str
  | [] => Option.none
  | c :: rest => if c = ')' then some [] else (upToClose rest).map fun t => c :: t

/-- First parenthesized abbreviation of a string, if any. -/
def parenAbbrev : Str → Option Str
  | [] => Option.none
  | c :: rest => if c = '(' then upToClose rest else parenAbbrev rest

/-- Modelled from the spec: the short name is the parenthesized abbreviation
lowercased when the long name contains one, and otherwise the long name with
spaces and hyphens replaced by underscores, lowercased. -/
def specShortname (long_name : Str) : Str :=
  match parenAbbrev long_name with
  | some ab => pyLower ab
  | Option.none =>
      pyLower (long_name.map fun c => if c = ' ' || c = '-' then '_' else c)

/-! ### scene.py — MTL value typing -/

/-- Leading sign of a float literal. -/
def splitSign (s : Str) : Int × Str :=
  if s.head? = some '+' then (1, s.tail)
  else if s.head? = some '-' then (-1, s.tail)
  else (1, s)

/-- Split a leading digit run. -/
def takeDigs (s : Str) : Str × Str := (s.takeWhile isDig, s.dropWhile isDig)

/-- Python `float(s)`: `[sign] (digits [. digits] | . digits | digits .)
[(e|E) [sign] digits]`.  (The `inf`/`nan` spellings, surrounding whitespace
and underscore separators do not occur in MTL files and are not
modelled.) -/
def pyFloatParse (s : Str) : Option ℚ :=
  let (sgn, s1) := splitSign s
  let (ip, s2) := takeDigs s1
  let hasDot := s2.head? = some '.'
  let (fp, s3) := if hasDot then takeDigs s2.tail else ([], s2)
  if ip.isEmpty && fp.isEmpty then Option.none
  else
    let mant : ℚ :=
      (sgn : ℚ) * ((decValue ip : ℚ) + (decValue fp : ℚ) / (10 : ℚ) ^ fp.length)
    match s3 with
    | [] => some mant
    | e :: rest =>
        if e = 'e' || e = 'E' then
          let (esgn, r1) := splitSign rest
          let (eds, r2) := takeDigs r1
          if eds.isEmpty || !r2.isEmpty then Option.none
          else some (mant * (10 : ℚ) ^ (esgn * (decValue eds : Int)))
        else Option.none

/-- scene.py `_to_numeric`: try `int(value)`, then `float(value)`, else
return the string unchanged. -/
def _to_numeric (value : Str) : PyScalar :=
  match pyIntParse value with
  | some z => PyScalar.int z
  | Option.none =>
      match pyFloatParse value with
      | some q => PyScalar.float q
      | Option.none => PyScalar.str value

/-- scene.py `Scene._parse_mtl`, value handling of one line:
`value.replace(chr34, grid)` removes every double-quote character, then
`_to_numeric` is applied. -/
def parseMtlValue (raw : Str) : PyScalar :=
  _to_numeric (raw.filter fun c => c ≠ '"')

/-- Modelled from the spec: strip one pair of surrounding double quotes. -/
def stripSurroundingQuotes (s : Str) : Str :=
  match s with
  | '"' :: rest =>
      if rest.getLast? = some '"' then rest.dropLast else s
  | _ => s

/-- Modelled from the spec: the value is stripped of surrounding quotes,
then coerced to integer if fully numeric, else to floating point if it
parses as a decimal, else left as a string. -/
def specCoerceValue (raw : Str) : PyScalar :=
  let v := stripSurroundingQuotes raw
  if !v.isEmpty && v.all isDig then PyScalar.int (decValue v)
  else
    match pyFloatParse v with
    | some q => PyScalar.float q
    | Option.none => PyScalar.str v

/-! ## Helper lemmas -/

/-- Two booleans agreeing as propositions are equal. -/
theorem boolEqOfIff {a b : Bool} (h : a = true ↔ b = true) : a = b := by
  cases a <;> cases b <;> simp_all

/-- If the pattern does not occur in a string, `replaceFirst` is the
identity on it. -/
theorem replaceFirst_of_not_contains (pat rep : Str) :
    ∀ s : Str, containsSub pat s = false → replaceFirst pat rep s = s := by
  intro s
  induction s with
  | nil =>
      intro h
      simp only [containsSub] at h
      simp [replaceFirst, h]
  | cons c s ih =>
      intro h
      simp only [containsSub, Bool.or_eq_false_iff] at h
      simp [replaceFirst, h.1, ih h.2]

/-- `_to_list` preserves truthiness. -/
theorem optListTruthy_to_list (v : PyVal) :
    optListTruthy (_to_list v) = truthy v := by
  by_cases h : truthy v = true
  · cases v with
    | none => simp [truthy] at h
    | scalar w => simp [_to_list, h, optListTruthy]
    | list xs =>
        simp only [truthy] at h
        simp [_to_list, truthy, h, optListTruthy]
    | tuple xs =>
        simp only [truthy] at h
        simp [_to_list, truthy, h, optListTruthy]
  · rw [Bool.not_eq_true] at h
    simp [_to_list, h, optListTruthy]

/-! ## C3 -/

/-- C3: counterexample.  With one list parameter but two "IN ?" sites,
`_format_placeholders` does not fail: it silently returns a query whose
second IN site is still the unexpanded "IN ?". -/
theorem c3_counterexample :
    _format_placeholders (("X IN ? Y IN ?").toList) [Param.list [(1 : Int), 2]]
        = (("X IN (?,?) Y IN ?").toList, [1, 2])
    ∧ containsSub inPat
        (_format_placeholders (("X IN ? Y IN ?").toList)
          [Param.list [(1 : Int), 2]]).1 = true := by
  constructor
  · decide
  · decide

/-- C3 (amended): `_format_placeholders` performs no count validation at
all.  In particular, when the query contains no "IN ?" site, any surplus of
list-valued parameters is silently ignored on the query side (each
replacement is a no-op) while their elements are still flattened into the
parameter stream; a mismatch surfaces only later, at SQL execution time. -/
theorem c3_amended_no_validation (α : Type) (params : List (Param α))
    (query : Str) (h : containsSub inPat query = false) :
    _format_placeholders query params = (query, _flatten params) := by
  unfold _format_placeholders
  refine Prod.ext ?_ rfl
  induction listLens params with
  | nil => rfl
  | cons n ns ih =>
      simpa [List.foldl_cons, replaceFirst_of_not_contains inPat (inExp n) query h]
        using ih

/-- C3: witness for the amended theorem at a concrete input. -/
theorem c3_witness :
    containsSub inPat (("cloud_cover <= ?").toList) = false
    ∧ _format_placeholders (("cloud_cover <= ?").toList)
        [Param.list [(1 : Int), 2, 3]]
        = (("cloud_cover <= ?").toList, [1, 2, 3]) :=
  ⟨by decide,
   c3_amended_no_validation Int [Param.list [(1 : Int), 2, 3]]
     (("cloud_cover <= ?").toList) (by decide)⟩

/-! ## C10 -/

/-- C10: in `search`, the default threshold 100.0 is substituted exactly
when the supplied maxcloud is falsy and not a float; in particular the
integer 0 becomes 100.0 while the float 0.0 is kept. -/
theorem c10_maxcloud_default : ∀ v : PyVal,
    (truthy v = false → PyVal.isFloat v = false →
       defaultMaxcloud v = PyVal.scalar (PyScalar.float 100))
    ∧ (truthy v = true ∨ PyVal.isFloat v = true → defaultMaxcloud v = v)
    ∧ defaultMaxcloud (PyVal.scalar (PyScalar.int 0))
        = PyVal.scalar (PyScalar.float 100)
    ∧ defaultMaxcloud (PyVal.scalar (PyScalar.float 0))
        = PyVal.scalar (PyScalar.float 0) := by
  intro v
  refine ⟨?_, ?_, by decide, by decide⟩
  · intro h1 h2
    simp [defaultMaxcloud, h1, h2]
  · intro h
    rcases h with h | h <;> simp [defaultMaxcloud, h]

/-- C10: witness, exercising the defaulting branch at maxcloud = int 0. -/
theorem c10_witness :
    truthy (PyVal.scalar (PyScalar.int 0)) = false
    ∧ PyVal.isFloat (PyVal.scalar (PyScalar.int 0)) = false
    ∧ defaultMaxcloud (PyVal.scalar (PyScalar.int 0))
        = PyVal.scalar (PyScalar.float 100) :=
  ⟨by decide, by decide,
   ((c10_maxcloud_default (PyVal.scalar (PyScalar.int 0))).1 (by decide) (by decide))⟩

/-! ## C5 -/

/-- C5: `search` picks the path/row strategy when both path and row are
given (truthy), else the spatial strategy when a geometry is given, and
otherwise fails with the "No spatial information provided." validation
error; exactly one of the three outcomes occurs. -/
theorem c5_strategy_selection : ∀ (path row : PyVal) (geom : Option Str),
    (truthy path = true → truthy row = true →
       searchStrategy path row geom = Except.ok Strategy.pathrow)
    ∧ (¬(truthy path = true ∧ truthy row = true) → optStrTruthy geom = true →
       searchStrategy path row geom = Except.ok Strategy.spatial)
    ∧ (¬(truthy path = true ∧ truthy row = true) → optStrTruthy geom = false →
       searchStrategy path row geom
         = Except.error (("No spatial information provided.").toList)) := by
  intro path row geom
  refine ⟨?_, ?_, ?_⟩
  · intro hp hr
    simp [searchStrategy, optListTruthy_to_list, hp, hr]
  · intro hpr hg
    have hb : (truthy path && truthy row) = false := by
      rcases Bool.and_eq_true (truthy path) (truthy row) |>.symm with _
      by_contra hx
      rw [Bool.not_eq_false, Bool.and_eq_true] at hx
      exact hpr hx
    simp [searchStrategy, optListTruthy_to_list, hb, hg]
  · intro hpr hg
    have hb : (truthy path && truthy row) = false := by
      by_contra hx
      rw [Bool.not_eq_false, Bool.and_eq_true] at hx
      exact hpr hx
    simp [searchStrategy, optListTruthy_to_list, hb, hg]

/-- C5: witness, exercising the spatial branch with only a geometry. -/
theorem c5_witness :
    ¬(truthy PyVal.none = true ∧ truthy PyVal.none = true)
    ∧ optStrTruthy (some (("POINT (1 1)").toList)) = true
    ∧ searchStrategy PyVal.none PyVal.none (some (("POINT (1 1)").toList))
        = Except.ok Strategy.spatial :=
  ⟨by decide, by decide,
   (c5_strategy_selection PyVal.none PyVal.none
      (some (("POINT (1 1)").toList))).2.1 (by decide) (by decide)⟩

/-! ## C7 -/

/-- C7: `to_reflectance` errors exactly when the band's short name contains
"tir", `to_brightness_temperature` errors exactly when it does not, and in
the allowed cases each returns the elementwise numeric conversion of the
digital numbers. -/
theorem c7_conversion_guards : ∀ b : BandInfo,
    (containsSub tirPat b.bname = true →
       to_reflectance b
           = Except.error (("TIR bands cannot be converted to reflectance.").toList)
       ∧ to_brightness_temperature b
           = Except.ok ((to_radiance b).map (btPixel b.k1 b.k2)))
    ∧ (containsSub tirPat b.bname = false →
       to_reflectance b
           = Except.ok (b.dn.map fun x => b.reflectance_gain * x + b.reflectance_bias)
       ∧ to_brightness_temperature b
           = Except.error
              (("Only thermal bands can be converted to brightness temperature.").toList)) := by
  intro b
  constructor
  · intro h
    constructor
    · simp [to_reflectance, h]
    · simp [to_brightness_temperature, h]
  · intro h
    constructor
    · simp [to_reflectance, h]
    · simp [to_brightness_temperature, h]

/-- C7: witness at a thermal band ("tirs1" contains "tir"). -/
theorem c7_witness :
    containsSub tirPat (("tirs1").toList) = true
    ∧ to_reflectance
        ⟨("tirs1").toList, 1, 0, 1, 0, (1 : ℝ), (1 : ℝ), [0, 1]⟩
        = Except.error (("TIR bands cannot be converted to reflectance.").toList) :=
  ⟨by decide,
   ((c7_conversion_guards
       ⟨("tirs1").toList, 1, 0, 1, 0, (1 : ℝ), (1 : ℝ), [0, 1]⟩).1 (by decide)).1⟩

/-! ## C2 -/

/-- C2: counterexample.  For a polygon geometry — i.e. one that IS an area —
`wrs` does compute coverage for every returned footprint, contradicting the
claim that coverage is computed only when the geometry is not an area. -/
theorem c2_counterexample :
    specIsArea (("POLYGON ((0 0, 1 0, 1 1, 0 0))").toList) = true
    ∧ (wrs (("POLYGON ((0 0, 1 0, 1 1, 0 0))").toList) 2 (fun _ => 1)
         [⟨195, 49, ("g").toList⟩] (fun _ => true)).map WrsOut.cover
        = [some (1 / 2)] := by
  exact ⟨by decide, rfl⟩

/-- C2 (amended): `wrs` returns exactly the grid cells the spatial query
reports as intersecting the geometry, and computes fractional coverage
(intersection area ÷ geometry area) for each returned footprint if and only
if the geometry's WKT names a polygon, i.e. iff it IS an area; for non-area
geometries no coverage is computed. -/
theorem c2_amended_wrs_cover : ∀ (geomWkt : Str) (geomArea : ℚ)
    (interArea : WrsRow → ℚ) (table : List WrsRow) (intersects : WrsRow → Bool),
    ((wrs geomWkt geomArea interArea table intersects).map
        fun o => (o.path, o.row, o.geom))
      = (table.filter intersects).map (fun pr => (pr.path, pr.row, pr.geom))
    ∧ (∀ o ∈ wrs geomWkt geomArea interArea table intersects,
        (o.cover.isSome = true ↔ specIsArea geomWkt = true))
    ∧ (specIsArea geomWkt = true →
        (wrs geomWkt geomArea interArea table intersects).map WrsOut.cover
          = (table.filter intersects).map fun pr => some (interArea pr / geomArea)) := by
  intro geomWkt geomArea interArea table intersects
  by_cases h : containsSub polygonPat geomWkt = true
  · refine ⟨?_, ?_, ?_⟩
    · simp [wrs, h]
    · intro o ho
      simp only [wrs, h, if_true, List.mem_map] at ho
      obtain ⟨pr, _, rfl⟩ := ho
      simp [specIsArea, h]
    · intro _
      simp [wrs, h]
  · rw [Bool.not_eq_true] at h
    refine ⟨?_, ?_, ?_⟩
    · simp [wrs, h]
    · intro o ho
      simp only [wrs, h, Bool.false_eq_true, if_false, List.mem_map] at ho
      obtain ⟨pr, _, rfl⟩ := ho
      simp [specIsArea, h]
    · intro hs
      rw [specIsArea, h] at hs
      exact absurd hs (by simp)

/-- C2: witness for the amended theorem: a point geometry, one intersecting
cell, no coverage computed. -/
theorem c2_witness :
    ((⟨195, 49, ("g").toList, none⟩ : WrsOut)
        ∈ wrs (("POINT (1 1)").toList) 2 (fun _ => 1)
            [⟨195, 49, ("g").toList⟩] (fun _ => true))
    ∧ ((Option.none : Option ℚ).isSome = true
        ↔ specIsArea (("POINT (1 1)").toList) = true) :=
  ⟨by decide,
   (c2_amended_wrs_cover (("POINT (1 1)").toList) 2 (fun _ => 1)
      [⟨195, 49, ("g").toList⟩] (fun _ => true)).2.1
     ⟨195, 49, ("g").toList, none⟩ (by decide)⟩

/-! ## C4 -/

/-- Soundness of the SLC list comprehension: every kept scene comes from
the input and passes `_slc_on`. -/
theorem slcPass_sound : ∀ (scenes out : List SceneRec),
    slcPass scenes = some out → ∀ s ∈ out, s ∈ scenes ∧ _slc_on s = some true := by
  intro scenes
  induction scenes with
  | nil =>
      intro out h s hs
      simp only [slcPass, Option.some.injEq] at h
      subst h
      simp at hs
  | cons a rest ih =>
      intro out h s hs
      simp only [slcPass] at h
      cases ha : _slc_on a with
      | none => rw [ha] at h; simp at h
      | some keep =>
          rw [ha] at h
          cases ht : slcPass rest with
          | none => rw [ht] at h; simp at h
          | some tail =>
              rw [ht] at h
              simp only [Option.bind_eq_bind, Option.some_bind, Option.pure_def,
                Option.some.injEq] at h
              subst h
              cases keep with
              | true =>
                  rcases List.mem_cons.mp (by simpa using hs) with rfl | htail
                  · exact ⟨List.mem_cons_self _ _, ha⟩
                  · have := ih tail ht s htail
                    exact ⟨List.mem_cons_of_mem _ this.1, this.2⟩
              | false =>
                  have := ih tail ht s (by simpa using hs)
                  exact ⟨List.mem_cons_of_mem a this.1, this.2⟩

/-- Completeness of the SLC list comprehension: every input scene passing
`_slc_on` is kept. -/
theorem slcPass_complete : ∀ (scenes out : List SceneRec),
    slcPass scenes = some out → ∀ s ∈ scenes, _slc_on s = some true → s ∈ out := by
  intro scenes
  induction scenes with
  | nil =>
      intro out h s hs
      simp at hs
  | cons a rest ih =>
      intro out h s hs hon
      simp only [slcPass] at h
      cases ha : _slc_on a with
      | none => rw [ha] at h; simp at h
      | some keep =>
          rw [ha] at h
          cases ht : slcPass rest with
          | none => rw [ht] at h; simp at h
          | some tail =>
              rw [ht] at h
              simp only [Option.bind_eq_bind, Option.some_bind, Option.pure_def,
                Option.some.injEq] at h
              subst h
              rcases List.mem_cons.mp hs with rfl | hrest
              · have : keep = true := by
                  rw [ha] at hon
                  simpa using hon
                subst this
                simp
              · have hmem := ih tail ht s hrest hon
                cases keep with
                | true => simpa using Or.inr hmem
                | false => simpa using hmem

/-- C4: with the slc flag set, every surviving scene whose product id has
'7' as its 4th character has sensing datetime strictly before the
2003-05-31 SLC failure cutoff; scenes of other spacecraft are always
retained; with the flag unset nothing is dropped.  (The filter operates on
the already-fetched scene list, i.e. in memory after the main query.) -/
theorem c4_slc_filter : ∀ (scenes out : List SceneRec),
    (applySlcFilter true scenes = some out →
       (∀ s ∈ out, s.product_id[3]? = some '7' →
          PyDatetime.lt s.sensing_time FAILURE = true)
       ∧ (∀ s ∈ scenes, ∀ c, s.product_id[3]? = some c → c ≠ '7' → s ∈ out))
    ∧ applySlcFilter false scenes = some scenes := by
  intro scenes out
  constructor
  · intro h
    rw [applySlcFilter, if_pos rfl] at h
    constructor
    · intro s hs h7
      have hslc := (slcPass_sound scenes out h s hs).2
      unfold _slc_on at hslc
      rw [h7] at hslc
      simp only [Option.map_some', Option.some.injEq] at hslc
      by_contra hlt
      rw [Bool.not_eq_true] at hlt
      simp [hlt] at hslc
    · intro s hs c hc hne
      apply slcPass_complete scenes out h s hs
      unfold _slc_on
      rw [hc]
      simp [hne]
  · simp [applySlcFilter]

/-- C4: witness — the spec's Scenario 2 inputs: the 2005 Landsat-7 scene is
dropped, the 2002 one and the Landsat-8 scene are retained. -/
theorem c4_witness :
    applySlcFilter true
        [⟨("LE07A").toList, ⟨2005, 1, 1, 0, 0, 0⟩⟩,
         ⟨("LE07B").toList, ⟨2002, 1, 1, 0, 0, 0⟩⟩,
         ⟨("LC08C").toList, ⟨2005, 1, 1, 0, 0, 0⟩⟩]
      = some [⟨("LE07B").toList, ⟨2002, 1, 1, 0, 0, 0⟩⟩,
              ⟨("LC08C").toList, ⟨2005, 1, 1, 0, 0, 0⟩⟩]
    ∧ PyDatetime.lt ⟨2002, 1, 1, 0, 0, 0⟩ FAILURE = true :=
  ⟨by decide,
   ((c4_slc_filter
       [⟨("LE07A").toList, ⟨2005, 1, 1, 0, 0, 0⟩⟩,
        ⟨("LE07B").toList, ⟨2002, 1, 1, 0, 0, 0⟩⟩,
        ⟨("LC08C").toList, ⟨2005, 1, 1, 0, 0, 0⟩⟩]
       [⟨("LE07B").toList, ⟨2002, 1, 1, 0, 0, 0⟩⟩,
        ⟨("LC08C").toList, ⟨2005, 1, 1, 0, 0, 0⟩⟩]).1 (by decide)).1
     ⟨("LE07B").toList, ⟨2002, 1, 1, 0, 0, 0⟩⟩ (by decide) (by decide)⟩

/-! ## C1 -/

/-- Whether a pattern is a prefix of `v ++ t` only depends on the first
`pat.length - 1` characters of `t`, when `v` is nonempty. -/
theorem isPrefixOf_append_take (pat v t : Str) (hv : v ≠ []) :
    pat.isPrefixOf (v ++ t) = pat.isPrefixOf (v ++ t.take (pat.length - 1)) := by
  have hlen : 1 ≤ v.length := List.length_pos.mpr hv
  have key : (v ++ t).take pat.length
      = (v ++ t.take (pat.length - 1)).take pat.length := by
    rw [List.take_append_eq_append_take, List.take_append_eq_append_take,
        List.take_take]
    have hmin : min (pat.length - v.length) (pat.length - 1)
        = pat.length - v.length := Nat.min_eq_left (Nat.sub_le_sub_left hlen _)
    rw [hmin]
  apply boolEqOfIff
  rw [List.isPrefixOf_iff_prefix, List.isPrefixOf_iff_prefix,
      List.prefix_iff_eq_take, List.prefix_iff_eq_take, key]

/-- `replaceFirst` walks over a block in which no occurrence of the pattern
starts (the occurrence test only ever reaches `pat.length - 1` characters
into the continuation). -/
theorem replaceFirst_append_of_safe (pat rep t : Str) :
    ∀ P : Str, containsSub pat (P ++ t.take (pat.length - 1)) = false →
    replaceFirst pat rep (P ++ t) = P ++ replaceFirst pat rep t := by
  intro P
  induction P with
  | nil => intro h; simp
  | cons c P ih =>
      intro h
      simp only [List.cons_append, containsSub, Bool.or_eq_false_iff] at h
      have hhead : pat.isPrefixOf (c :: (P ++ t)) = false := by
        have hext := isPrefixOf_append_take pat (c :: P) t (by simp)
        simp only [List.cons_append] at hext
        rw [hext]
        exact h.1
      simp only [List.cons_append, replaceFirst, List.append_eq]
      rw [hhead]
      simp only [Bool.false_eq_true, if_false]
      rw [ih h.2]

/-- `replaceFirst` at an immediate occurrence of the pattern. -/
theorem replaceFirst_of_isPrefixOf (pat rep s : Str)
    (h : pat.isPrefixOf s = true) :
    replaceFirst pat rep s = rep ++ s.drop pat.length := by
  cases s with
  | nil => simp [replaceFirst, h]
  | cons c s => simp [replaceFirst, h]

/-- Core of C1: expanding the sites of an assembled template left to right
replaces, one by one, the first remaining "IN ?" by the IN clause of the
corresponding width. -/
theorem foldl_replace_assemble :
    ∀ (pairs : List (Nat × Str)) (P first : Str),
    foldSafe P first pairs = true →
    (pairs.map Prod.fst).foldl (fun q n => replaceFirst inPat (inExp n) q)
        (P ++ assemble first (pairs.map Prod.snd))
      = P ++ assembleExp first pairs := by
  intro pairs
  induction pairs with
  | nil =>
      intro P first _
      simp [assemble, assembleExp]
  | cons p rest ih =>
      obtain ⟨n, s⟩ := p
      intro P first hsafe
      simp only [foldSafe, Bool.and_eq_true, Bool.not_eq_true'] at hsafe
      obtain ⟨h1, h2⟩ := hsafe
      simp only [List.map_cons, assemble, List.foldl_cons]
      have hassoc : P ++ (first ++ (inPat ++ assemble s (List.map Prod.snd rest)))
          = (P ++ first) ++ (inPat ++ assemble s (List.map Prod.snd rest)) := by
        simp [List.append_assoc]
      rw [show P ++ (first ++ inPat ++ assemble s (List.map Prod.snd rest))
            = (P ++ first) ++ (inPat ++ assemble s (List.map Prod.snd rest)) by
          simp [List.append_assoc]]
      have htake : (inPat ++ assemble s (List.map Prod.snd rest)).take (inPat.length - 1)
          = inPat.take (inPat.length - 1) :=
        List.take_append_of_le_length (Nat.sub_le _ _)
      have hcond : containsSub inPat
          ((P ++ first) ++ (inPat ++ assemble s (List.map Prod.snd rest)).take (inPat.length - 1))
          = false := by
        rw [htake]
        exact h1
      rw [replaceFirst_append_of_safe inPat (inExp n)
            (inPat ++ assemble s (List.map Prod.snd rest)) (P ++ first) hcond]
      rw [replaceFirst_of_isPrefixOf _ _ _
            (List.isPrefixOf_iff_prefix.mpr (List.prefix_append _ _)),
          List.drop_left]
      rw [show (P ++ first) ++ (inExp n ++ assemble s (List.map Prod.snd rest))
            = (P ++ first ++ inExp n) ++ assemble s (List.map Prod.snd rest) by
          simp [List.append_assoc]]
      rw [ih (P ++ first ++ inExp n) s h2]
      simp [assembleExp, List.append_assoc]

/-- `_flatten` concatenates the parameters' item lists in their original
order (scalars contribute singletons, lists their elements in order). -/
theorem flatten_eq_flatMap {α : Type} : ∀ params : List (Param α),
    _flatten params = params.flatMap paramItems := by
  intro params
  induction params with
  | nil => simp [_flatten]
  | cons p rest ih =>
      cases p with
      | scalar a => simp [_flatten, paramItems, ih]
      | list l => simp [_flatten, paramItems, ih]

/-- C1: for a template `first ++ "IN ?" ++ s₁ ++ … ++ "IN ?" ++ sₘ` and a
parameter sequence whose list-valued entries have, in order of appearance,
exactly the lengths `n₁, …, nₘ`, `_format_placeholders` replaces the i-th
"IN ?" site by an IN clause with exactly `nᵢ` positional placeholders, and
the returned parameter sequence is the order-preserving flattening of all
scalar and list elements. -/
theorem c1_format_placeholders (α : Type) (params : List (Param α))
    (first : Str) (pairs : List (Nat × Str))
    (hmatch : listLens params = pairs.map Prod.fst)
    (hsafe : foldSafe [] first pairs = true) :
    _format_placeholders (assemble first (pairs.map Prod.snd)) params
      = (assembleExp first pairs, params.flatMap paramItems) := by
  unfold _format_placeholders
  rw [hmatch, flatten_eq_flatMap]
  have h := foldl_replace_assemble pairs [] first hsafe
  simpa using h

/-- C1: witness on a two-site template with interleaved scalars, a
three-element list and a two-element list. -/
theorem c1_witness :
    listLens [Param.scalar (7 : Int), Param.list [1, 2, 3],
              Param.scalar 8, Param.list [4, 5]]
        = ([(3, (" AND y ").toList), (2, (" B").toList)].map Prod.fst)
    ∧ foldSafe [] (("A x ").toList)
        [(3, (" AND y ").toList), (2, (" B").toList)] = true
    ∧ _format_placeholders
        (assemble (("A x ").toList)
          ([(3, (" AND y ").toList), (2, (" B").toList)].map Prod.snd))
        [Param.scalar (7 : Int), Param.list [1, 2, 3],
         Param.scalar 8, Param.list [4, 5]]
      = (assembleExp (("A x ").toList)
           [(3, (" AND y ").toList), (2, (" B").toList)],
         [Param.scalar (7 : Int), Param.list [1, 2, 3],
          Param.scalar 8, Param.list [4, 5]].flatMap paramItems) :=
  ⟨by decide, by decide,
   c1_format_placeholders Int
     [Param.scalar (7 : Int), Param.list [1, 2, 3],
      Param.scalar 8, Param.list [4, 5]]
     (("A x ").toList)
     [(3, (" AND y ").toList), (2, (" B").toList)]
     (by decide) (by decide)⟩

/-! ## C6 -/

/-- Bounds of a digit character. -/
theorem isDig_toNat (c : Char) (h : isDig c = true) :
    48 ≤ c.toNat ∧ c.toNat ≤ 57 := by
  simpa [isDig] using h

/-- Digit values are below ten. -/
theorem digVal_lt_ten (c : Char) (h : isDig c = true) : digVal c < 10 := by
  have := isDig_toNat c h
  unfold digVal
  omega

/-- Peeling the last digit of a decimal string. -/
theorem decValue_append_digit (s : Str) (c : Char) :
    decValue (s ++ [c]) = 10 * decValue s + digVal c := by
  simp [decValue, List.foldl_append]

/-- Zero-padded rendering inverts evaluation on fixed-width digit
strings. -/
theorem padDec_decValue : ∀ s : Str, s.all isDig = true →
    padDec s.length (decValue s) = s := by
  intro s
  induction s using List.reverseRecOn with
  | nil => intro _; rfl
  | append_singleton s c ih =>
      intro h
      rw [List.all_append, Bool.and_eq_true] at h
      have hc : isDig c = true := by simpa using h.2
      have hs := h.1
      have hlt := digVal_lt_ten c hc
      have hcb := isDig_toNat c hc
      rw [decValue_append_digit]
      have hlen : (s ++ [c]).length = s.length + 1 := by simp
      rw [hlen]
      simp only [padDec]
      have hdiv : (10 * decValue s + digVal c) / 10 = decValue s := by omega
      have hmod : (10 * decValue s + digVal c) % 10 = digVal c := by omega
      rw [hdiv, hmod, ih hs]
      have hchar : 48 + digVal c = c.toNat := by unfold digVal at *; omega
      rw [hchar, Char.ofNat_toNat]

/-- `all` restricted to a take. -/
theorem all_take (p : Char → Bool) (s : Str) (n : Nat) (h : s.all p = true) :
    (s.take n).all p = true := by
  rw [List.all_eq_true] at *
  intro x hx
  exact h x (List.take_subset n s hx)

/-- `all` restricted to a drop. -/
theorem all_drop (p : Char → Bool) (s : Str) (n : Nat) (h : s.all p = true) :
    (s.drop n).all p = true := by
  rw [List.all_eq_true] at *
  intro x hx
  exact h x (List.drop_subset n s hx)

/-- Python `int` on a nonempty digit string. -/
theorem pyIntParse_digits (s : Str) (hne : s ≠ []) (hd : s.all isDig = true) :
    pyIntParse s = some ((decValue s : Nat) : Int) := by
  cases s with
  | nil => exact absurd rfl hne
  | cons c t =>
      have hc : isDig c = true := by
        rw [List.all_cons, Bool.and_eq_true] at hd
        exact hd.1
      have h1 : ¬((c :: t : Str).head? = some '+') := by
        simp only [List.head?_cons, Option.some.injEq]
        intro hx
        subst hx
        exact absurd hc (by decide)
      have h2 : ¬((c :: t : Str).head? = some '-') := by
        simp only [List.head?_cons, Option.some.injEq]
        intro hx
        subst hx
        exact absurd hc (by decide)
      unfold pyIntParse
      rw [if_neg h1, if_neg h2]
      unfold digParse
      rw [if_pos]
      · rfl
      · rw [Bool.and_eq_true]
        exact ⟨by simp, hd⟩

/-- What a successful `strptimeYmd` tells about its argument. -/
theorem strptimeYmd_roundtrip (s : Str) (d : PyDate)
    (h : strptimeYmd s = some d) :
    s.length = 8 ∧ s.all isDig = true ∧ dateStr d = s := by
  simp only [strptimeYmd] at h
  split_ifs at h with hA hB
  · rw [Bool.and_eq_true, decide_eq_true_eq] at hA
    obtain ⟨hlen, hdig⟩ := hA
    rw [Option.some.injEq] at h
    subst h
    refine ⟨hlen, hdig, ?_⟩
    have ht4 : (s.take 4).length = 4 := by simp [List.length_take, hlen]
    have hd4t2 : ((s.drop 4).take 2).length = 2 := by
      simp [List.length_take, List.length_drop, hlen]
    have hd6 : (s.drop 6).length = 2 := by simp [List.length_drop, hlen]
    have hp1 := padDec_decValue (s.take 4) (all_take _ _ _ hdig)
    have hp2 := padDec_decValue ((s.drop 4).take 2)
      (all_take _ _ _ (all_drop _ _ _ hdig))
    have hp3 := padDec_decValue (s.drop 6) (all_drop _ _ _ hdig)
    rw [ht4] at hp1
    rw [hd4t2] at hp2
    rw [hd6] at hp3
    show padDec 4 (decValue (s.take 4))
        ++ padDec 2 (decValue ((s.drop 4).take 2))
        ++ padDec 2 (decValue (s.drop 6)) = s
    rw [hp1, hp2, hp3]
    rw [show (s.drop 4).take 2 = (s.drop 4).take 2 from rfl]
    have hdd : s.drop 6 = (s.drop 4).drop 2 := by
      rw [List.drop_drop]
    rw [hdd, List.append_assoc, List.take_append_drop, List.take_append_drop]

/-- `pySplit` never returns the empty list. -/
theorem pySplit_ne_nil (sep : Char) (s : Str) : pySplit sep s ≠ [] := by
  cases s with
  | nil => simp [pySplit]
  | cons c s =>
      unfold pySplit
      by_cases hc : c = sep
      · simp [hc]
      · simp only [hc, if_false]
        split <;> simp

/-- Joining with underscores undoes `pySplit '_'`. -/
theorem joinUnderscore_pySplit : ∀ s : Str,
    joinUnderscore (pySplit '_' s) = s := by
  intro s
  induction s with
  | nil => rfl
  | cons c s ih =>
      unfold pySplit
      obtain ⟨t, ts, ht⟩ : ∃ t ts, pySplit '_' s = t :: ts := by
        cases hx : pySplit '_' s with
        | nil => exact absurd hx (pySplit_ne_nil '_' s)
        | cons t ts => exact ⟨t, ts, rfl⟩
      rw [ht] at ih ⊢
      by_cases hc : c = '_'
      · subst hc
        rw [if_pos rfl]
        have h1 : joinUnderscore ([] :: t :: ts)
            = ([] : Str) ++ '_' :: joinUnderscore (t :: ts) := rfl
        rw [h1, ih]
        rfl
      · rw [if_neg hc]
        cases ts with
        | nil =>
            have h1 : joinUnderscore [c :: t] = c :: t := rfl
            have h2 : joinUnderscore [t] = t := rfl
            rw [h2] at ih
            rw [h1, ih]
        | cons u us =>
            have h1 : joinUnderscore ((c :: t) :: u :: us)
                = (c :: t) ++ '_' :: joinUnderscore (u :: us) := rfl
            have h2 : joinUnderscore (t :: u :: us)
                = t ++ '_' :: joinUnderscore (u :: us) := rfl
            rw [h2] at ih
            rw [h1, List.cons_append, ih]

/-- C6: for every valid 7-field product identifier, `meta_from_pid`
extracts sensor, correction, path, row, acquisition date, processing date,
collection and tier whose re-stringification reconstructs the original
identifier; in particular the documented example parses to sensor "LC08",
path 44, row 34, collection 1, tier "T2". -/
theorem c6_meta_roundtrip :
    (∀ pid : Str, validPid pid = true →
       ∃ m, meta_from_pid pid = some m ∧ restringify m = pid)
    ∧ meta_from_pid (("LC08_L1GT_044034_20130330_20170310_01_T2").toList)
        = some ⟨("LC08_L1GT_044034_20130330_20170310_01_T2").toList,
               ("LC08").toList, ("L1GT").toList, 44, 34,
               ⟨2013, 3, 30⟩, ⟨2017, 3, 10⟩, 1, ("T2").toList⟩ := by
  constructor
  · intro pid hv
    unfold validPid at hv
    split at hv
    case h_2 => simp at hv
    case h_1 prc col t heq =>
      rename_i a b pathrow acq
      simp only [Bool.and_eq_true, decide_eq_true_eq] at hv
      obtain ⟨⟨⟨⟨⟨h6, hpd⟩, hacq⟩, hprc⟩, hc2⟩, hcd⟩ := hv
      obtain ⟨da, hda⟩ := Option.isSome_iff_exists.mp hacq
      obtain ⟨dp, hdp⟩ := Option.isSome_iff_exists.mp hprc
      have hT : pathrow.take 3 ≠ [] := by
        intro hx
        have hl := congrArg List.length hx
        rw [List.length_take, h6] at hl
        simp at hl
      have hD : pathrow.drop 3 ≠ [] := by
        intro hx
        have hl := congrArg List.length hx
        rw [List.length_drop, h6] at hl
        simp at hl
      have hTd := all_take isDig pathrow 3 hpd
      have hDd := all_drop isDig pathrow 3 hpd
      have hPyT := pyIntParse_digits _ hT hTd
      have hPyD := pyIntParse_digits _ hD hDd
      have hCne : col ≠ [] := by
        intro hx
        rw [hx] at hc2
        simp at hc2
      have hPyC := pyIntParse_digits col hCne hcd
      refine ⟨⟨pid, a, b, ((decValue (pathrow.take 3) : Nat) : Int),
        ((decValue (pathrow.drop 3) : Nat) : Int), da, dp,
        ((decValue col : Nat) : Int), t⟩, ?_, ?_⟩
      · unfold meta_from_pid
        rw [heq]
        simp only [List.getElem?_cons_zero, List.getElem?_cons_succ,
          Option.bind_eq_bind, Option.some_bind]
        rw [hPyT, hPyD, hda, hdp, hPyC]
        rfl
      · show joinUnderscore [a, b,
            padDec 3 ((decValue (pathrow.take 3) : Nat) : Int).toNat
              ++ padDec 3 ((decValue (pathrow.drop 3) : Nat) : Int).toNat,
            dateStr da, dateStr dp,
            padDec 2 ((decValue col : Nat) : Int).toNat, t] = pid
        have hl3 : (pathrow.take 3).length = 3 := by
          simp [List.length_take, h6]
        have hl3' : (pathrow.drop 3).length = 3 := by
          simp [List.length_drop, h6]
        have hpad1 := padDec_decValue (pathrow.take 3) hTd
        rw [hl3] at hpad1
        have hpad2 := padDec_decValue (pathrow.drop 3) hDd
        rw [hl3'] at hpad2
        have hpadc := padDec_decValue col hcd
        rw [hc2] at hpadc
        have hdate1 := (strptimeYmd_roundtrip acq da hda).2.2
        have hdate2 := (strptimeYmd_roundtrip prc dp hdp).2.2
        rw [Int.toNat_natCast, Int.toNat_natCast, Int.toNat_natCast]
        rw [hpad1, hpad2, hpadc, hdate1, hdate2, List.take_append_drop]
        rw [← heq]
        exact joinUnderscore_pySplit pid
  · rfl

/-- C6: witness at the documented product identifier. -/
theorem c6_witness :
    validPid (("LC08_L1GT_044034_20130330_20170310_01_T2").toList) = true
    ∧ ∃ m, meta_from_pid (("LC08_L1GT_044034_20130330_20170310_01_T2").toList)
          = some m
        ∧ restringify m = ("LC08_L1GT_044034_20130330_20170310_01_T2").toList :=
  ⟨by decide,
   c6_meta_roundtrip.1 (("LC08_L1GT_044034_20130330_20170310_01_T2").toList)
     (by decide)⟩

/-! ## C8 -/

/-- `pyFind` locates the first occurrence of a character. -/
theorem pyFind_append_cons (c : Char) : ∀ (u w : Str), c ∉ u →
    pyFind c (u ++ c :: w) = (u.length : Int) := by
  intro u
  induction u with
  | nil => intro w _; simp [pyFind]
  | cons x u ih =>
      intro w h
      rw [List.mem_cons, not_or] at h
      obtain ⟨hx, hu⟩ := h
      rw [List.cons_append]
      unfold pyFind
      rw [if_neg (fun hxx => hx hxx.symm)]
      simp only [ih w hu]
      rw [if_neg (by omega)]
      simp only [List.length_cons]
      push_cast
      ring

/-- Python slicing between the two parenthesis positions recovers the
abbreviation. -/
theorem pySlice_extract (pre mid post : Str) :
    pySlice ((pre ++ '(' :: mid) ++ ')' :: post) ((pre.length : Int) + 1)
        ((pre ++ '(' :: mid).length : Int) = mid := by
  unfold pySlice pySliceIdx
  rw [if_neg (show ¬(((pre ++ '(' :: mid).length : Int) < 0) by omega),
      if_neg (show ¬(((pre.length : Int) + 1) < 0) by omega)]
  rw [Int.toNat_natCast]
  rw [show ((pre.length : Int) + 1).toNat = pre.length + 1 by omega]
  rw [show min ((pre ++ '(' :: mid).length)
        (((pre ++ '(' :: mid) ++ ')' :: post).length)
      = (pre ++ '(' :: mid).length from Nat.min_eq_left (by simp)]
  rw [List.take_left]
  rw [show min (pre.length + 1) (((pre ++ '(' :: mid) ++ ')' :: post).length)
      = pre.length + 1 from Nat.min_eq_left (by simp)]
  rw [show pre ++ '(' :: mid = (pre ++ ['(']) ++ mid by simp]
  exact List.drop_left' (by simp)

/-- Content up to the first closing parenthesis. -/
theorem upToClose_extract (mid post : Str) (h : ')' ∉ mid) :
    upToClose (mid ++ ')' :: post) = some mid := by
  induction mid with
  | nil => simp [upToClose]
  | cons x mid ih =>
      rw [List.mem_cons, not_or] at h
      rw [List.cons_append]
      unfold upToClose
      rw [if_neg (fun hx => h.1 hx.symm)]
      rw [ih h.2]
      rfl

/-- The first parenthesized abbreviation of a well-formed name. -/
theorem parenAbbrev_extract (pre mid post : Str) (hpre : '(' ∉ pre)
    (hmid : ')' ∉ mid) :
    parenAbbrev (pre ++ '(' :: (mid ++ ')' :: post)) = some mid := by
  induction pre with
  | nil =>
      rw [List.nil_append]
      unfold parenAbbrev
      rw [if_pos rfl]
      exact upToClose_extract mid post hmid
  | cons x pre ih =>
      rw [List.mem_cons, not_or] at hpre
      rw [List.cons_append]
      unfold parenAbbrev
      rw [if_neg (fun hx => hpre.1 hx.symm)]
      exact ih hpre.2

/-- Without an opening parenthesis there is no abbreviation. -/
theorem parenAbbrev_none (s : Str) (h : '(' ∉ s) :
    parenAbbrev s = Option.none := by
  induction s with
  | nil => rfl
  | cons x s ih =>
      rw [List.mem_cons, not_or] at h
      unfold parenAbbrev
      rw [if_neg (fun hx => h.1 hx.symm)]
      exact ih h.2

/-- C8: counterexample.  The name "a)(b)" contains the parenthesized
abbreviation "b" (so the claim demands short name "b"), but the code slices
between `find('(') = 2` and the first ')' at index 1, producing the empty
string. -/
theorem c8_counterexample :
    _band_shortname (("a)(b)").toList) = []
    ∧ specShortname (("a)(b)").toList) = ['b']
    ∧ _band_shortname (("a)(b)").toList) ≠ specShortname (("a)(b)").toList) := by
  refine ⟨by decide, by decide, by decide⟩

set_option maxRecDepth 8192 in
/-- C8 (amended): the claim holds on names without '(' and on names whose
first '(' is followed by a matching ')' with no earlier ')' (all real band
names); in general the code slices between the first '(' and the first ')'
of the whole name, which differs from the claim when a ')' precedes the
first '('.  The two scenario equalities hold. -/
theorem c8_amended_shortname :
    (∀ name : Str, '(' ∉ name → _band_shortname name = specShortname name)
    ∧ (∀ pre mid post : Str, '(' ∉ pre → ')' ∉ pre → ')' ∉ mid →
        _band_shortname ((pre ++ '(' :: mid) ++ ')' :: post) = pyLower mid
        ∧ specShortname ((pre ++ '(' :: mid) ++ ')' :: post) = pyLower mid)
    ∧ _band_shortname (("Near Infrared (NIR)").toList) = ("nir").toList
    ∧ _band_shortname (("Red").toList) = ("red").toList := by
  refine ⟨?_, ?_, by decide, by decide⟩
  · intro name h
    have hc : name.contains '(' = false := by
      cases hcc : name.contains '(' with
      | false => rfl
      | true => exact absurd (by simpa using hcc) h
    unfold _band_shortname specShortname
    rw [parenAbbrev_none name h]
    simp only [hc, Bool.false_eq_true, if_false]
  · intro pre mid post h1 h2 h3
    have hnp : ')' ∉ pre ++ '(' :: mid := by
      intro hx
      rcases List.mem_append.mp hx with hx | hx
      · exact h2 hx
      · rcases List.mem_cons.mp hx with hx | hx
        · exact absurd hx (by decide)
        · exact h3 hx
    have hshape : (pre ++ '(' :: mid) ++ ')' :: post
        = pre ++ '(' :: (mid ++ ')' :: post) := by simp
    constructor
    · have hc : ((pre ++ '(' :: mid) ++ ')' :: post).contains '(' = true := by
        have hmem : '(' ∈ (pre ++ '(' :: mid) ++ ')' :: post := by simp
        simpa using hmem
      unfold _band_shortname
      rw [hc]
      simp only [if_true]
      have hfind1 : pyFind '(' ((pre ++ '(' :: mid) ++ ')' :: post)
          = (pre.length : Int) := by
        rw [hshape]
        exact pyFind_append_cons '(' pre (mid ++ ')' :: post) h1
      have hfind2 : pyFind ')' ((pre ++ '(' :: mid) ++ ')' :: post)
          = ((pre ++ '(' :: mid).length : Int) :=
        pyFind_append_cons ')' (pre ++ '(' :: mid) post hnp
      rw [hfind1, hfind2, pySlice_extract]
    · unfold specShortname
      rw [hshape, parenAbbrev_extract pre mid post h1 h3]

/-- C8: witness for the amended theorem at the scenario input. -/
theorem c8_witness :
    _band_shortname ((("Near Infrared ").toList ++ '(' :: ("NIR").toList)
        ++ ')' :: ([] : Str)) = pyLower (("NIR").toList) :=
  ((c8_amended_shortname.2.1 (("Near Infrared ").toList) (("NIR").toList) []
      (by decide) (by decide) (by decide)).1)

/-! ## C9 -/

/-- C9: counterexample.  For the value string "-5" the claim prescribes a
float (the string is not fully numeric but parses as a decimal), while the
code's `int()` accepts the signed literal and returns the integer -5. -/
theorem c9_counterexample :
    parseMtlValue (("-5").toList) = PyScalar.int (-5)
    ∧ specCoerceValue (("-5").toList) = PyScalar.float (-5)
    ∧ parseMtlValue (("-5").toList) ≠ specCoerceValue (("-5").toList) := by
  refine ⟨by decide, ?_, by decide⟩
  have hq : pyFloatParse (("-5").toList) = some (-5 : ℚ) := by
    simp [pyFloatParse, splitSign, takeDigs, isDig, decValue, digVal]
  unfold specCoerceValue
  rw [show stripSurroundingQuotes (("-5").toList) = ("-5").toList from rfl]
  rw [if_neg (by decide)]
  rw [hq]

/-- C9 (amended): each metadata value has every double-quote character
removed (which strips the surrounding quotes of well-formed MTL values),
and is then coerced to an integer exactly when Python's `int()` accepts it
(an optionally signed digit string), else to a float exactly when Python's
`float()` accepts it, else kept as the de-quoted string. -/
theorem c9_amended_to_numeric : ∀ raw : Str,
    (∀ z : Int, parseMtlValue raw = PyScalar.int z ↔
        pyIntParse (raw.filter fun c => c ≠ '"') = some z)
    ∧ (∀ q : ℚ, parseMtlValue raw = PyScalar.float q ↔
        (pyIntParse (raw.filter fun c => c ≠ '"') = Option.none
         ∧ pyFloatParse (raw.filter fun c => c ≠ '"') = some q))
    ∧ (∀ t : Str, parseMtlValue raw = PyScalar.str t ↔
        (pyIntParse (raw.filter fun c => c ≠ '"') = Option.none
         ∧ pyFloatParse (raw.filter fun c => c ≠ '"') = Option.none
         ∧ t = raw.filter fun c => c ≠ '"')) := by
  intro raw
  unfold parseMtlValue _to_numeric
  cases hi : pyIntParse (raw.filter fun c => c ≠ '"') with
  | some z =>
      refine ⟨?_, ?_, ?_⟩ <;> intro x <;> simp [hi]
  | none =>
      cases hf : pyFloatParse (raw.filter fun c => c ≠ '"') with
      | some q =>
          refine ⟨?_, ?_, ?_⟩ <;> intro x <;> simp [hi, hf]
      | none =>
          refine ⟨?_, ?_, ?_⟩ <;> intro x <;> simp [hi, hf, eq_comm]

/-- C9: witness, the integer coercion at value "6" (the repository's own
test case). -/
theorem c9_witness : parseMtlValue (("6").toList) = PyScalar.int 6 :=
  ((c9_amended_to_numeric (("6").toList)).1 6).mpr (by decide)
